import Mathlib

/-!
Verification of the frame-classification engine, packet dispatcher and GPIO
helpers of ic706-remote (src/common.c) against its natural-language
specification.  The C code is shallowly embedded: machine-integer effects
are made explicit (the C variable `num` has type `size_t`, so a negative
return of `read` converts to `SIZE_MAX = 2 ^ 64 - 1`), I/O is modelled by
passing the read result in and collecting the performed writes as a trace,
and the write return values are supplied by an oracle function.
-/

namespace IC706

/-- Modelled from the spec: the header `common.h` (not in src) defines the
`PKT_TYPE_*` constants; the spec describes the frame type as a tagged
variant over Invalid, Incomplete, EndOfStream, EndOfFile, Keepalive,
Init1, Init2, PanelPowerKey and Forwardable(code), with the status codes
distinct from values observed on the wire. -/
inductive PktType where
  | incomplete
  | invalid
  | eos
  | eof
  | keepalive
  | init1
  | init2
  | pwk
  | forwardable (code : Nat)
deriving DecidableEq

/-- Modelled from the spec: the reserved wire type codes (common.h is not
in src): Keepalive is 0x0B, Init1 is 0xF0, Init2 is 0xF1, PanelPowerKey is
0xA0; every other code is a generic forwardable frame. -/
def codeToType (c : Nat) : PktType :=
  if c = 0x0B then PktType.keepalive
  else if c = 0xF0 then PktType.init1
  else if c = 0xF1 then PktType.init2
  else if c = 0xA0 then PktType.pwk
  else PktType.forwardable c

/-- The transfer buffer `struct xfr_buf`: a backing byte array `data`
(its length is the capacity RDBUF_SIZE), the write cursor `wridx` and the
three running counters.  `write_errors` is an `Int` because the C code
adds a raw `write` return value to it in one place. -/
structure XfrBuf where
  data : List Nat
  wridx : Nat
  valid_pkts : Nat
  invalid_pkts : Nat
  write_errors : Int
deriving DecidableEq

/-- Modelled from the spec: a freshly initialized buffer for one relay
direction (initialization is outside src): cursor 0, counters 0, backing
array of `cap` zero bytes. -/
def freshBuf (cap : Nat) : XfrBuf :=
  { data := List.replicate cap 0, wridx := 0, valid_pkts := 0,
    invalid_pkts := 0, write_errors := 0 }

/-- Result of the underlying `read` call: `ok bytes` is a successful read
returning `bytes.length` (zero length is end of file), `err` is a
negative return. -/
inductive ReadResult where
  | ok (bytes : List Nat)
  | err
deriving DecidableEq

/-- Value of the C expression assigning the `ssize_t` return of `read` to
the `size_t` variable `num`: an error return of -1 converts to
`SIZE_MAX = 2 ^ 64 - 1`. -/
def numOf : ReadResult → Nat
  | ReadResult.ok bytes => bytes.length
  | ReadResult.err => 2 ^ 64 - 1

/-- Overwrite the contents of `d` starting at offset `start` with the
bytes of `c` (the effect of `read(fd, &buf[wridx], ...)` copying into the
backing array); bytes beyond the end of `d` are dropped, which the C
envelope never exercises because `read` is bounded by
`RDBUF_SIZE - wridx`. -/
def writeBytes : List Nat → Nat → List Nat → List Nat
  | [], _, _ => []
  | x :: d, _, [] => x :: d
  | _ :: d, 0, y :: ys => y :: writeBytes d 0 ys
  | x :: d, s + 1, y :: ys => x :: writeBytes d s (y :: ys)

/-- Classification of a non-empty buffer, exactly the branch structure of
read_data: first byte 0xFE and last written byte 0xFD gives the type code
at offset 1; first byte 0xFE otherwise is incomplete; a lone 0x00 is end
of stream; anything else is invalid. -/
def classify (data : List Nat) (wridx : Nat) : PktType :=
  if data.getD 0 0 = 0xFE then
    if data.getD (wridx - 1) 0 = 0xFD then codeToType (data.getD 1 0)
    else PktType.incomplete
  else if data.getD 0 0 = 0x00 ∧ wridx = 1 then PktType.eos
  else PktType.invalid

/-- Embedding of read_data: reads into the buffer at the cursor and
classifies.  Because `num` is the unsigned `size_t`, the `num > 0` branch
is also taken on a read error (num = SIZE_MAX), advancing the cursor by
SIZE_MAX; the C `else` branch that would classify a negative `num` as
invalid is unreachable, exactly as in the source. -/
def read_data (r : ReadResult) (b : XfrBuf) : PktType × XfrBuf :=
  let num := numOf r
  if 0 < num then
    let data' := match r with
      | ReadResult.ok bytes => writeBytes b.data b.wridx bytes
      | ReadResult.err => b.data
    let wridx' := b.wridx + num
    (classify data' wridx', { b with data := data', wridx := wridx' })
  else
    (PktType.eof, b)

/-- Init1 acknowledgment frame written back on the input channel. -/
def init1_resp : List Nat := [0xFE, 0xF0, 0xFD]

/-- Init2 acknowledgment frame written back on the input channel. -/
def init2_resp : List Nat := [0xFE, 0xF1, 0xFD]

/-- One performed `write`: the destination descriptor and the bytes
handed to the call. -/
structure WriteOp where
  chan : Nat
  bytes : List Nat
deriving DecidableEq

/-- Body of the `PKT_TYPE_INIT1` case of transfer_data, also reached by
fallthrough from the `PKT_TYPE_KEEPALIVE` case: the two acknowledgment
writes (whose return values are `wres 0` and `wres 1`), each counted in
`write_errors` when not equal to 3, then cursor reset and a valid-packet
increment. -/
def init1_action (wres : Nat → Int) (b : XfrBuf) : XfrBuf :=
  let b1 := { b with write_errors := b.write_errors + (if wres 0 ≠ 3 then 1 else 0) }
  let b2 := { b1 with write_errors := b1.write_errors + (if wres 1 ≠ 3 then 1 else 0) }
  { b2 with wridx := 0, valid_pkts := b2.valid_pkts + 1 }

/-- The switch of transfer_data, acting on the buffer state `b1` left by
read_data.  `wres i` is the return value of the i-th `write` performed by
this call; the returned list is the trace of writes.  Note the source
details kept: the keepalive case increments `valid_pkts`, zeroes the
cursor and falls through into the init1 case; the init2 case adds the raw
`write` return value to `write_errors` (no comparison with 3); the
default case sends the accumulated buffer to the output channel. -/
def dispatch (ifd ofd : Nat) (wres : Nat → Int) (pkt_type : PktType) (b1 : XfrBuf) :
    XfrBuf × List WriteOp :=
  match pkt_type with
  | PktType.keepalive =>
      (init1_action wres { b1 with wridx := 0, valid_pkts := b1.valid_pkts + 1 },
       [WriteOp.mk ifd init1_resp, WriteOp.mk ifd init2_resp])
  | PktType.init1 =>
      (init1_action wres b1,
       [WriteOp.mk ifd init1_resp, WriteOp.mk ifd init2_resp])
  | PktType.init2 =>
      ({ b1 with write_errors := b1.write_errors + wres 0,
                 wridx := 0, valid_pkts := b1.valid_pkts + 1 },
       [WriteOp.mk ifd init2_resp])
  | PktType.pwk =>
      ({ b1 with wridx := 0, valid_pkts := b1.valid_pkts + 1 }, [])
  | PktType.incomplete => (b1, [])
  | PktType.invalid =>
      ({ b1 with invalid_pkts := b1.invalid_pkts + 1, wridx := 0 }, [])
  | _ =>
      ({ b1 with write_errors := b1.write_errors +
                   (if wres 0 ≠ (b1.wridx : Int) then 1 else 0),
                 wridx := 0, valid_pkts := b1.valid_pkts + 1 },
       [WriteOp.mk ofd (b1.data.take b1.wridx)])

/-- Embedding of transfer_data: one read_data call followed by the switch
on the classified type; returns the classification, the final buffer and
the trace of writes performed. -/
def transfer_data (ifd ofd : Nat) (r : ReadResult) (wres : Nat → Int) (b : XfrBuf) :
    PktType × XfrBuf × List WriteOp :=
  let rd := read_data r b
  (rd.1, dispatch ifd ofd wres rd.1 rd.2)

/-- Feed a sequence of read fragments into the buffer by successive
read_data calls (no dispatch in between, so nothing resets the cursor);
the result is the classification returned by the last call together with
the final buffer. -/
def feed_reads : List (List Nat) → XfrBuf → PktType × XfrBuf
  | [], b => (PktType.eof, b)
  | [c], b => read_data (ReadResult.ok c) b
  | c :: c2 :: rest, b => feed_reads (c2 :: rest) (read_data (ReadResult.ok c) b).2

/-- No bytes to write leaves the array unchanged. -/
theorem writeBytes_nil (d : List Nat) (s : Nat) : writeBytes d s [] = d := by
  cases d <;> cases s <;> rfl

/-- Writing into an empty array yields the empty array. -/
theorem writeBytes_nil_left (s : Nat) (c : List Nat) : writeBytes [] s c = [] := by
  cases c <;> cases s <;> rfl

/-- Unfolding equation of writeBytes at offset zero. -/
theorem writeBytes_cons_zero (x : Nat) (d : List Nat) (y : Nat) (ys : List Nat) :
    writeBytes (x :: d) 0 (y :: ys) = y :: writeBytes d 0 ys := rfl

/-- Unfolding equation of writeBytes at a positive offset. -/
theorem writeBytes_cons_succ (x : Nat) (d : List Nat) (s : Nat) (y : Nat) (ys : List Nat) :
    writeBytes (x :: d) (s + 1) (y :: ys) = x :: writeBytes d s (y :: ys) := rfl

/-- Two successive writes at consecutive offsets coincide with one write of
the concatenated bytes: the composition law behind fragmentation
invariance. -/
theorem writeBytes_append (d : List Nat) (s : Nat) (c1 c2 : List Nat) :
    writeBytes (writeBytes d s c1) (s + c1.length) c2 = writeBytes d s (c1 ++ c2) := by
  induction d generalizing s c1 with
  | nil => simp [writeBytes_nil_left]
  | cons x d ih =>
      cases s with
      | zero =>
          cases c1 with
          | nil => simp [writeBytes_nil]
          | cons y ys =>
              cases c2 with
              | nil => simp [writeBytes_nil]
              | cons z zs =>
                  rw [writeBytes_cons_zero, List.cons_append, writeBytes_cons_zero]
                  rw [show (0 : Nat) + (y :: ys).length = ys.length + 1 by
                    simp [List.length_cons]]
                  rw [writeBytes_cons_succ]
                  have h := ih 0 ys
                  simp only [Nat.zero_add] at h
                  rw [h]
      | succ t =>
          cases c1 with
          | nil => simp [writeBytes_nil]
          | cons y ys =>
              cases c2 with
              | nil => simp [writeBytes_nil]
              | cons z zs =>
                  rw [writeBytes_cons_succ, List.cons_append, writeBytes_cons_succ]
                  rw [show (t + 1) + (y :: ys).length = (t + (y :: ys).length) + 1 by
                    omega]
                  rw [writeBytes_cons_succ, ih t (y :: ys), List.cons_append]

/-- Bytes strictly below the write offset are untouched by a write. -/
theorem writeBytes_getD_lt (d : List Nat) (s : Nat) (c : List Nat) (i : Nat)
    (h : i < s) : (writeBytes d s c).getD i 0 = d.getD i 0 := by
  induction d generalizing s c i with
  | nil => simp [writeBytes_nil_left]
  | cons x d ih =>
      cases s with
      | zero => omega
      | succ t =>
          cases c with
          | nil => rw [writeBytes_nil]
          | cons y ys =>
              rw [writeBytes_cons_succ]
              cases i with
              | zero => rfl
              | succ j => simpa using ih t (y :: ys) j (by omega)

/-- Writing `c` at offset 0 of a large enough array puts `c` in front of
the untouched tail. -/
theorem writeBytes_zero_eq (d c : List Nat) (h : c.length ≤ d.length) :
    writeBytes d 0 c = c ++ d.drop c.length := by
  induction c generalizing d with
  | nil => simp [writeBytes_nil]
  | cons y ys ih =>
      cases d with
      | nil => simp at h
      | cons x d =>
          rw [writeBytes_cons_zero, ih d (by simpa using h)]
          simp


/-- Unfolding of read_data on a successful non-empty read: the chunk is
written at the cursor, the cursor advances by its length, and the result
is the classification of the updated buffer. -/
theorem read_data_ok (c : List Nat) (b : XfrBuf) (h : c ≠ []) :
    read_data (ReadResult.ok c) b =
      (classify (writeBytes b.data b.wridx c) (b.wridx + c.length),
       { b with data := writeBytes b.data b.wridx c, wridx := b.wridx + c.length }) := by
  have hlen : 0 < c.length := List.length_pos.mpr h
  simp [read_data, numOf, hlen]

theorem feed_reads_spec (cs : List (List Nat)) (c : List Nat) (b : XfrBuf)
    (h : ∀ x ∈ c :: cs, x ≠ []) :
    feed_reads (c :: cs) b =
      (classify (writeBytes b.data b.wridx (c :: cs).flatten)
         (b.wridx + ((c :: cs).flatten).length),
       { b with data := writeBytes b.data b.wridx (c :: cs).flatten,
                wridx := b.wridx + ((c :: cs).flatten).length }) := by
  induction cs generalizing c b with
  | nil =>
      have hc : c ≠ [] := h c (by simp)
      rw [show feed_reads [c] b = read_data (ReadResult.ok c) b from rfl,
        read_data_ok c b hc]
      simp
  | cons c2 rest ih =>
      have hc : c ≠ [] := h c (by simp)
      rw [show feed_reads (c :: c2 :: rest) b =
        feed_reads (c2 :: rest) (read_data (ReadResult.ok c) b).2 from rfl]
      rw [read_data_ok c b hc]
      rw [ih c2 _ (fun x hx => h x (by simp at hx ⊢; tauto))]
      simp only [List.flatten_cons]
      rw [writeBytes_append]
      simp [Nat.add_assoc]

theorem read_data_counters (r : ReadResult) (b : XfrBuf) :
    (read_data r b).2.valid_pkts = b.valid_pkts ∧
    (read_data r b).2.invalid_pkts = b.invalid_pkts ∧
    (read_data r b).2.write_errors = b.write_errors := by
  have hp : (0 : Nat) < 2 ^ 64 - 1 := by norm_num
  cases r with
  | ok c => cases c <;> simp [read_data, numOf]
  | err => simp [read_data, numOf, hp]

/-- C1: fragmentation invariance: feeding a byte sequence to read_data
through any splitting into non-empty fragments ends in the same
classification as delivering it in one single read (the spec precondition
that the capacity is not exhausted is carried as a hypothesis). -/
theorem c1_fragmentation_invariance (cs : List (List Nat)) (cap : Nat)
    (hne : cs ≠ []) (hc : ∀ c ∈ cs, c ≠ [])
    (hfit : cs.flatten.length ≤ cap) :
    (feed_reads cs (freshBuf cap)).1 =
      (read_data (ReadResult.ok cs.flatten) (freshBuf cap)).1 := by
  cases cs with
  | nil => exact absurd rfl hne
  | cons c cs =>
      have hcne : c ≠ [] := hc c (by simp)
      have hflat : (c :: cs).flatten ≠ [] := by
        simp only [List.flatten_cons]
        intro hast
        exact hcne (List.append_eq_nil.mp hast).1
      rw [feed_reads_spec cs c _ hc, read_data_ok _ _ hflat]

theorem c1_fragmentation_invariance_witness :
    (feed_reads [[0xFE], [0x0B, 0x00], [0xFD]] (freshBuf 8)).1 =
      (read_data (ReadResult.ok ([[0xFE], [0x0B, 0x00], [0xFD]] :
        List (List Nat)).flatten) (freshBuf 8)).1 ∧
    (feed_reads [[0xFE], [0x0B, 0x00], [0xFD]] (freshBuf 8)).1 =
      PktType.keepalive :=
  ⟨c1_fragmentation_invariance [[0xFE], [0x0B, 0x00], [0xFD]] 8 (by decide)
      (by decide) (by decide),
   by decide⟩

/-- C3: the claimed error handling is dead code: because `num` has the
unsigned type `size_t`, a read error (-1) enters the `num > 0` branch and
is treated as SIZE_MAX bytes successfully read, corrupting the cursor;
the classification produced for a fresh zeroed buffer is Invalid only by
accident of inspecting the buffer, not via the unreachable error branch. -/
theorem c3_read_error_corrupts_cursor :
    (read_data ReadResult.err (freshBuf 8)).2.wridx = 2 ^ 64 - 1 ∧
    (read_data ReadResult.err (freshBuf 8)).2.wridx ≠ 0 ∧
    (read_data ReadResult.err (freshBuf 8)).2.data = (freshBuf 8).data := by
  refine ⟨by decide, by decide, rfl⟩

/-- C5: every classification outcome other than Incomplete leaves the
write cursor at 0 when transfer_data returns, and an Incomplete outcome
keeps the buffer exactly as the read step left it (accumulated bytes and
cursor retained). -/
theorem c5_cursor_reset (ifd ofd : Nat) (r : ReadResult) (wres : Nat → Int)
    (b : XfrBuf) :
    ((transfer_data ifd ofd r wres b).1 ≠ PktType.incomplete →
      (transfer_data ifd ofd r wres b).2.1.wridx = 0) ∧
    ((transfer_data ifd ofd r wres b).1 = PktType.incomplete →
      (transfer_data ifd ofd r wres b).2.1 = (read_data r b).2) := by
  have ht : transfer_data ifd ofd r wres b =
      ((read_data r b).1,
       dispatch ifd ofd wres (read_data r b).1 (read_data r b).2) := rfl
  rw [ht]
  cases hty : (read_data r b).1 <;>
    simp [dispatch, init1_action, hty]

theorem c5_cursor_reset_witness :
    (transfer_data 3 4 (ReadResult.ok [0xFE, 0xA0, 0x00, 0xFD]) (fun _ => 3)
      (freshBuf 8)).2.1.wridx = 0 ∧
    (transfer_data 3 4 (ReadResult.ok [0xFE]) (fun _ => 3)
      (freshBuf 8)).2.1 = (read_data (ReadResult.ok [0xFE]) (freshBuf 8)).2 :=
  ⟨(c5_cursor_reset 3 4 (ReadResult.ok [0xFE, 0xA0, 0x00, 0xFD]) (fun _ => 3)
      (freshBuf 8)).1 (by decide),
   (c5_cursor_reset 3 4 (ReadResult.ok [0xFE]) (fun _ => 3)
      (freshBuf 8)).2 (by decide)⟩

/-- C6: the degenerate two-byte frame 0xFE 0xFD on a fresh buffer is
classified by reusing the terminator byte 0xFD as type code (a generic
forwardable code), not as Incomplete and not as Invalid. -/
theorem c6_degenerate_frame (cap : Nat) (h : 2 ≤ cap) :
    (read_data (ReadResult.ok [0xFE, 0xFD]) (freshBuf cap)).1 = codeToType 0xFD ∧
    (read_data (ReadResult.ok [0xFE, 0xFD]) (freshBuf cap)).1 =
      PktType.forwardable 0xFD ∧
    (read_data (ReadResult.ok [0xFE, 0xFD]) (freshBuf cap)).1 ≠
      PktType.incomplete ∧
    (read_data (ReadResult.ok [0xFE, 0xFD]) (freshBuf cap)).1 ≠
      PktType.invalid := by
  have hd : (freshBuf cap).data = List.replicate cap 0 := rfl
  have hw : (freshBuf cap).wridx = 0 := rfl
  have hrd := read_data_ok [0xFE, 0xFD] (freshBuf cap) (by simp)
  rw [hd, hw, writeBytes_zero_eq _ _ (by simpa using h)] at hrd
  have hcl : classify (([0xFE, 0xFD] : List Nat) ++
      (List.replicate cap 0).drop ([0xFE, 0xFD] : List Nat).length)
      (0 + ([0xFE, 0xFD] : List Nat).length) = PktType.forwardable 0xFD := rfl
  rw [hrd]
  refine ⟨rfl, rfl, ?_, ?_⟩ <;> rw [hcl] <;> simp

theorem c6_degenerate_frame_witness :
    2 ≤ 8 ∧
    (read_data (ReadResult.ok [0xFE, 0xFD]) (freshBuf 8)).1 =
      PktType.forwardable 0xFD :=
  ⟨by decide, (c6_degenerate_frame 8 (by decide)).2.1⟩
/-- Counterexample to C7 as stated: when the single buffered byte is the
start marker 0xFE, an arriving 0x00 byte is classified Incomplete, not
Invalid (the 0x00 becomes part of an unterminated regular frame). -/
theorem c7_counterexample :
    (read_data (ReadResult.ok [0x00])
      (XfrBuf.mk [0xFE, 0x00, 0x00, 0x00] 1 0 0 0)).1 = PktType.incomplete ∧
    (read_data (ReadResult.ok [0x00])
      (XfrBuf.mk [0xFE, 0x00, 0x00, 0x00] 1 0 0 0)).1 ≠ PktType.invalid := by
  refine ⟨by decide, by decide⟩

/-- C7 amended: a lone 0x00 read into an empty buffer always classifies
EndOfStream, and a 0x00 arriving when other bytes are already buffered
classifies Invalid provided the first buffered byte is not the start
marker 0xFE (when it is 0xFE, the regular-frame rule applies and the
outcome is Incomplete). -/
theorem c7_zero_byte (b : XfrBuf) :
    (b.wridx = 0 → (read_data (ReadResult.ok [0x00]) b).1 = PktType.eos) ∧
    (1 ≤ b.wridx → b.data.getD 0 0 ≠ 0xFE →
      (read_data (ReadResult.ok [0x00]) b).1 = PktType.invalid) := by
  constructor
  · intro h0
    rw [read_data_ok _ _ (by simp), h0]
    have hz : (writeBytes b.data 0 [0x00]).getD 0 0 = 0 := by
      cases b.data with
      | nil => rfl
      | cons x d => rfl
    unfold classify
    rw [hz]
    simp
  · intro h1 hfe
    rw [read_data_ok _ _ (by simp)]
    have hz : (writeBytes b.data b.wridx [0x00]).getD 0 0 = b.data.getD 0 0 :=
      writeBytes_getD_lt b.data b.wridx [0x00] 0 (by omega)
    have hw : ¬(b.data.getD 0 0 = 0 ∧ b.wridx + ([0x00] : List Nat).length = 1) := by
      rintro ⟨-, h2⟩
      simp at h2
      omega
    unfold classify
    rw [hz, if_neg hfe, if_neg hw]

theorem c7_zero_byte_witness :
    (read_data (ReadResult.ok [0x00]) (freshBuf 4)).1 = PktType.eos ∧
    (read_data (ReadResult.ok [0x00])
      (XfrBuf.mk [0x42, 0x00, 0x00, 0x00] 1 0 0 0)).1 = PktType.invalid :=
  ⟨(c7_zero_byte (freshBuf 4)).1 (by decide),
   (c7_zero_byte (XfrBuf.mk [0x42, 0x00, 0x00, 0x00] 1 0 0 0)).2
     (by decide) (by decide)⟩

/-- C10: transfer_data never writes into the byte array beyond what the
underlying read appended: the final array equals the array left by the
read step, and the read step preserves every byte below the old cursor;
in particular the handshake acknowledgments only appear on the write
trace, never in the buffer. -/
theorem c10_buffer_bytes_preserved (ifd ofd : Nat) (r : ReadResult)
    (wres : Nat → Int) (b : XfrBuf) :
    (transfer_data ifd ofd r wres b).2.1.data = (read_data r b).2.data ∧
    (∀ i, i < b.wridx →
      (read_data r b).2.data.getD i 0 = b.data.getD i 0) := by
  constructor
  · have ht : transfer_data ifd ofd r wres b =
        ((read_data r b).1,
         dispatch ifd ofd wres (read_data r b).1 (read_data r b).2) := rfl
    rw [ht]
    cases hty : (read_data r b).1 <;> simp [dispatch, init1_action]
  · intro i hi
    have hp : (0 : Nat) < 2 ^ 64 - 1 := by norm_num
    cases r with
    | err => simp [read_data, numOf, hp]
    | ok c =>
        cases c with
        | nil => simp [read_data, numOf]
        | cons y ys =>
            rw [read_data_ok (y :: ys) b (by simp)]
            exact writeBytes_getD_lt b.data b.wridx (y :: ys) i hi

theorem c10_buffer_bytes_preserved_witness :
    (transfer_data 3 4 (ReadResult.ok [0xFD]) (fun _ => 2)
      (XfrBuf.mk [0xFE, 0x0B, 0x00, 0x00] 2 0 0 0)).2.1.data =
      (read_data (ReadResult.ok [0xFD])
        (XfrBuf.mk [0xFE, 0x0B, 0x00, 0x00] 2 0 0 0)).2.data ∧
    (1 : Nat) < 2 ∧
    (read_data (ReadResult.ok [0xFD])
      (XfrBuf.mk [0xFE, 0x0B, 0x00, 0x00] 2 0 0 0)).2.data.getD 1 0 =
      (XfrBuf.mk [0xFE, 0x0B, 0x00, 0x00] 2 0 0 0).data.getD 1 0 :=
  ⟨(c10_buffer_bytes_preserved 3 4 (ReadResult.ok [0xFD]) (fun _ => 2)
      (XfrBuf.mk [0xFE, 0x0B, 0x00, 0x00] 2 0 0 0)).1,
   by decide,
   (c10_buffer_bytes_preserved 3 4 (ReadResult.ok [0xFD]) (fun _ => 2)
      (XfrBuf.mk [0xFE, 0x0B, 0x00, 0x00] 2 0 0 0)).2 1 (by decide)⟩

/-- Counterexample to C2 as stated: a Keepalive frame on a fresh buffer
increments the valid-frame counter by 2, not by exactly 1, because the
keepalive case increments it once and then falls through into the shared
init1 action which increments it again. -/
theorem c2_counterexample :
    (transfer_data 3 4 (ReadResult.ok [0xFE, 0x0B, 0x00, 0xFD]) (fun _ => 3)
      (freshBuf 8)).2.1.valid_pkts = 2 ∧
    ¬ (transfer_data 3 4 (ReadResult.ok [0xFE, 0x0B, 0x00, 0xFD]) (fun _ => 3)
      (freshBuf 8)).2.1.valid_pkts = (freshBuf 8).valid_pkts + 1 := by
  refine ⟨by decide, by decide⟩

/-- C2 amended: on a Keepalive classification, transfer_data writes the
Init1 acknowledgment and then the Init2 acknowledgment, in that order, on
the input channel, resets the cursor to 0, and increments the valid-frame
counter by exactly 2 (once in the keepalive case and once in the shared
init1 action it falls through to). -/
theorem c2_keepalive_action (ifd ofd : Nat) (r : ReadResult) (wres : Nat → Int)
    (b : XfrBuf) (h : (transfer_data ifd ofd r wres b).1 = PktType.keepalive) :
    (transfer_data ifd ofd r wres b).2.2 =
      [WriteOp.mk ifd init1_resp, WriteOp.mk ifd init2_resp] ∧
    (transfer_data ifd ofd r wres b).2.1.wridx = 0 ∧
    (transfer_data ifd ofd r wres b).2.1.valid_pkts = b.valid_pkts + 2 := by
  have ht : transfer_data ifd ofd r wres b =
      ((read_data r b).1,
       dispatch ifd ofd wres (read_data r b).1 (read_data r b).2) := rfl
  rw [ht] at h ⊢
  simp only at h
  rw [h]
  have hv := (read_data_counters r b).1
  simp [dispatch, init1_action, hv]

theorem c2_keepalive_action_witness :
    (transfer_data 3 4 (ReadResult.ok [0xFE, 0x0B, 0x00, 0xFD]) (fun _ => 3)
      (freshBuf 8)).1 = PktType.keepalive ∧
    (transfer_data 3 4 (ReadResult.ok [0xFE, 0x0B, 0x00, 0xFD]) (fun _ => 3)
      (freshBuf 8)).2.2 =
      [WriteOp.mk 3 init1_resp, WriteOp.mk 3 init2_resp] ∧
    (transfer_data 3 4 (ReadResult.ok [0xFE, 0x0B, 0x00, 0xFD]) (fun _ => 3)
      (freshBuf 8)).2.1.valid_pkts = (freshBuf 8).valid_pkts + 2 :=
  ⟨by decide,
   (c2_keepalive_action 3 4 (ReadResult.ok [0xFE, 0x0B, 0x00, 0xFD])
     (fun _ => 3) (freshBuf 8) (by decide)).1,
   (c2_keepalive_action 3 4 (ReadResult.ok [0xFE, 0x0B, 0x00, 0xFD])
     (fun _ => 3) (freshBuf 8) (by decide)).2.2⟩

/-- C4: the init2 case adds the raw return value of `write` to the
write_errors counter instead of comparing it with 3: a fully successful
3-byte acknowledgment write leaves write_errors at 3 instead of 0 (the
acknowledgment itself is written and the valid counter does increment
by 1, as claimed). -/
theorem c4_init2_write_errors_bug :
    (transfer_data 3 4 (ReadResult.ok [0xFE, 0xF1, 0xFD]) (fun _ => 3)
      (freshBuf 8)).2.1.write_errors = 3 ∧
    (transfer_data 3 4 (ReadResult.ok [0xFE, 0xF1, 0xFD]) (fun _ => 3)
      (freshBuf 8)).2.2 = [WriteOp.mk 3 init2_resp] ∧
    (transfer_data 3 4 (ReadResult.ok [0xFE, 0xF1, 0xFD]) (fun _ => 3)
      (freshBuf 8)).2.1.valid_pkts = 1 := by
  refine ⟨by decide, by decide, by decide⟩

/-- C8: a generic forwardable frame read whole into a fresh buffer is
written verbatim, and only it, to the output channel, the valid-frame
counter becomes 1, and nothing is written on the input channel. -/
theorem c8_forwardable_verbatim (ifd ofd : Nat) (wres : Nat → Int) (cap : Nat)
    (h : 4 ≤ cap) :
    (transfer_data ifd ofd (ReadResult.ok [0xFE, 0x42, 0x01, 0xFD]) wres
      (freshBuf cap)).2.2 = [WriteOp.mk ofd [0xFE, 0x42, 0x01, 0xFD]] ∧
    (transfer_data ifd ofd (ReadResult.ok [0xFE, 0x42, 0x01, 0xFD]) wres
      (freshBuf cap)).2.1.valid_pkts = 1 ∧
    (∀ op ∈ (transfer_data ifd ofd (ReadResult.ok [0xFE, 0x42, 0x01, 0xFD]) wres
      (freshBuf cap)).2.2, op.chan = ofd) := by
  have hd : (freshBuf cap).data = List.replicate cap 0 := rfl
  have hw : (freshBuf cap).wridx = 0 := rfl
  have hrd := read_data_ok [0xFE, 0x42, 0x01, 0xFD] (freshBuf cap) (by simp)
  rw [hd, hw, writeBytes_zero_eq _ _ (by simpa using h)] at hrd
  have hcl : classify (([0xFE, 0x42, 0x01, 0xFD] : List Nat) ++
      (List.replicate cap 0).drop ([0xFE, 0x42, 0x01, 0xFD] : List Nat).length)
      (0 + ([0xFE, 0x42, 0x01, 0xFD] : List Nat).length) =
      PktType.forwardable 0x42 := rfl
  have ht : transfer_data ifd ofd (ReadResult.ok [0xFE, 0x42, 0x01, 0xFD]) wres
      (freshBuf cap) =
      ((read_data (ReadResult.ok [0xFE, 0x42, 0x01, 0xFD]) (freshBuf cap)).1,
       dispatch ifd ofd wres
         (read_data (ReadResult.ok [0xFE, 0x42, 0x01, 0xFD]) (freshBuf cap)).1
         (read_data (ReadResult.ok [0xFE, 0x42, 0x01, 0xFD]) (freshBuf cap)).2) := rfl
  rw [ht, hrd]
  simp only [hcl, dispatch]
  have htk : (([0xFE, 0x42, 0x01, 0xFD] : List Nat) ++
      (List.replicate cap 0).drop
        ([0xFE, 0x42, 0x01, 0xFD] : List Nat).length).take
      (0 + ([0xFE, 0x42, 0x01, 0xFD] : List Nat).length) =
      ([0xFE, 0x42, 0x01, 0xFD] : List Nat) := rfl
  refine ⟨?_, rfl, ?_⟩
  · simp only [htk]
  · intro op hop
    simp only [htk, List.mem_singleton] at hop
    rw [hop]

theorem c8_forwardable_verbatim_witness :
    4 ≤ 8 ∧
    (transfer_data 3 4 (ReadResult.ok [0xFE, 0x42, 0x01, 0xFD]) (fun _ => 4)
      (freshBuf 8)).2.2 = [WriteOp.mk 4 [0xFE, 0x42, 0x01, 0xFD]] ∧
    (transfer_data 3 4 (ReadResult.ok [0xFE, 0x42, 0x01, 0xFD]) (fun _ => 4)
      (freshBuf 8)).2.1.valid_pkts = 1 :=
  ⟨by decide,
   (c8_forwardable_verbatim 3 4 (fun _ => 4) 8 (by decide)).1,
   (c8_forwardable_verbatim 3 4 (fun _ => 4) 8 (by decide)).2.1⟩
/-- Path prefix of the GPIO virtual filesystem, SYSFS_GPIO_DIR in the
source. -/
def SYSFS_GPIO_DIR : String := "/sys/class/gpio/"

/-- Oracle for the filesystem effects of the GPIO helpers: whether a path
already exists (the `access` check), whether `open` succeeds on a path,
and the return value of a `write` of a given string to a path. -/
structure GpioEnv where
  pathExists : String → Bool
  openOk : String → Bool
  writeRet : String → String → Int

/-- Embedding of gpio_set_value: opens `gpio<N>/value` and writes "1" or
"0"; returns the negated count of failed writes (0 on success, -1 when
the open or the write fails) together with the trace of writes
performed. -/
def gpio_set_value (env : GpioEnv) (gpio : Nat) (value : Nat) :
    Int × List (String × String) :=
  let path := SYSFS_GPIO_DIR ++ "gpio" ++ toString gpio ++ "/value"
  if env.openOk path then
    let s := if value = 1 then "1" else "0"
    let wr_err : Int := if env.writeRet path s ≠ 1 then 1 else 0
    (-wr_err, [(path, s)])
  else
    (-1, [])

/-- Embedding of gpio_init_out: exports the pin if absent, sets its
direction to "out", then performs the initializing zero write through
`gpio_set_value 20 0` — the source hardcodes pin 20 here instead of using
the `gpio` argument.  Returns the C return value and the trace of writes
(path, content) in order. -/
def gpio_init_out (env : GpioEnv) (gpio : Nat) : Int × List (String × String) :=
  let gpioPath := SYSFS_GPIO_DIR ++ "gpio" ++ toString gpio
  let exportPath := SYSFS_GPIO_DIR ++ "export"
  let dirPath := gpioPath ++ "/direction"
  if env.pathExists gpioPath = false ∧ env.openOk exportPath = false then
    (-1, [])
  else
    let s1 : List (String × String) :=
      if env.pathExists gpioPath then [] else [(exportPath, toString gpio)]
    let e1 : Int :=
      if env.pathExists gpioPath then 0
      else if env.writeRet exportPath (toString gpio) ≠
          ((toString gpio).length : Int) then 1 else 0
    if env.openOk dirPath = false then (-1, s1)
    else
      let e2 : Int := e1 + (if env.writeRet dirPath "out" ≠ 3 then 1 else 0)
      let sv := gpio_set_value env 20 0
      let trace := s1 ++ [(dirPath, "out")] ++ sv.2
      if sv.1 < 0 then (-1, trace)
      else if 0 < e2 then (-1, trace)
      else (0, trace)

/-- An environment where the pin is not yet exported, every open succeeds
and every write is fully successful (returns the length it was asked to
write). -/
def allOkEnv : GpioEnv :=
  { pathExists := fun _ => false, openOk := fun _ => true,
    writeRet := fun _ s => (s.length : Int) }

/-- C9: the initializing zero write of gpio_init_out does not target the
pin it was given: initializing pin 7 exports pin 7 and sets its direction
but writes the initial 0 to pin 20's value file, and never touches pin
7's value file. -/
theorem c9_init_out_hardcoded_pin :
    (gpio_init_out allOkEnv 7).2 =
      [(SYSFS_GPIO_DIR ++ "export", "7"),
       (SYSFS_GPIO_DIR ++ "gpio7/direction", "out"),
       (SYSFS_GPIO_DIR ++ "gpio20/value", "0")] ∧
    (∀ p ∈ (gpio_init_out allOkEnv 7).2,
      p.1 ≠ SYSFS_GPIO_DIR ++ "gpio7/value") ∧
    (gpio_init_out allOkEnv 7).1 = 0 := by
  refine ⟨by decide, by decide, by decide⟩

end IC706
